import Mathlib

/-!
Shallow embedding of the `file-sanitizer` engine (src/file_sanitizer/sanitizer.py)
together with the parts of the engine that the repository's CLI and tests
reference but whose implementation is not present under src/ (those are
modelled from the specification and marked as such in their doc comments).

External collaborators (the image codec, the PDF library, the filesystem and
the ZIP decompressor) are modelled as oracles carried by the input
environment: each oracle field corresponds to one effectful call site of the
Python source and records that call's outcome (`Except.error msg` models a
raised exception carrying `str(exc)`).
-/

namespace FileSanitizer

/-- Warning entry of the JSONL report: a stable snake_case code plus a human
message (`WarningItem` in sanitizer.py). -/
structure WarningItem where
  code : String
  message : String
deriving DecidableEq, Repr

/-- One report record per processed input (`ReportItem` in sanitizer.py). -/
structure ReportItem where
  input_path : String
  output_path : Option String
  action : String
  warnings : List WarningItem
  error : Option String := none
deriving DecidableEq, Repr

/-- Engine configuration (`SanitizeOptions` in sanitizer.py).  Python ints are
embedded as `Int`; the float `zip_max_compression_ratio` is embedded as an
exact rational. -/
structure SanitizeOptions where
  flat_output : Bool := false
  overwrite : Bool := true
  copy_unsupported : Bool := true
  skip_symlinks : Bool := true
  dry_run : Bool := false
  exclude_globs : List String := []
  zip_max_members : Int := 10000
  zip_max_member_uncompressed_bytes : Int := 64 * 1024 * 1024
  zip_max_total_uncompressed_bytes : Int := 512 * 1024 * 1024
  zip_max_compression_ratio : Rat := 100
  nested_archive_policy : String := "skip"
  risky_policy : String := "warn"
deriving Repr

/-- `IMAGE_EXTS` from sanitizer.py. -/
def imageExts : List String := [".jpg", ".jpeg", ".png", ".webp"]

/-- `OFFICE_OOXML_EXTS` from sanitizer.py. -/
def officeOoxmlExts : List String :=
  [".docx", ".xlsx", ".pptx", ".docm", ".xlsm", ".pptm", ".dotm", ".xltm", ".potm"]

/-- `OFFICE_MACRO_ENABLED_EXTS` from sanitizer.py. -/
def officeMacroExts : List String := [".docm", ".xlsm", ".pptm", ".dotm", ".xltm", ".potm"]

/-- `str.startswith` (structural, over the character list). -/
def strStartsWith (s p : String) : Bool := List.isPrefixOf p.data s.data

/-- `str.endswith` (structural, over the character list). -/
def strEndsWith (s p : String) : Bool := List.isSuffixOf p.data s.data

/-- Character membership, as `"/" in pat`. -/
def strContainsChar (s : String) (c : Char) : Bool := s.data.contains c

/-- Split on a single separator character, as `str.split`/`splitOn` behave for
a one-character separator. -/
def splitOnChar (c : Char) : List Char → List (List Char)
  | [] => [[]]
  | a :: rest =>
    match splitOnChar c rest with
    | [] => [[]]
    | cur :: more => if a == c then [] :: cur :: more else (a :: cur) :: more

/-- `_is_risky_warning` from sanitizer.py. -/
def isRiskyWarning (w : WarningItem) : Bool :=
  strStartsWith w.code "pdf_risk_" || w.code == "pdf_scan_failed" ||
    w.code == "office_macro_enabled" || w.code == "office_macro_indicator_vbaproject" ||
    w.code == "office_ooxml_scan_failed" || strStartsWith w.code "zip_"

/-- `_has_risky_findings` from sanitizer.py. -/
def hasRiskyFindings (ws : List WarningItem) : Bool :=
  ws.any isRiskyWarning

/-- `_policy_blocked_warning` from sanitizer.py. -/
def policyBlockedW : WarningItem :=
  ⟨"policy_blocked", "blocked by risky_policy=block"⟩

/-- `_validate_options` from sanitizer.py: raising `ValueError(msg)` is
embedded as `Except.error msg`.  The checks appear in source order. -/
def validateOptions (o : SanitizeOptions) : Except String Unit :=
  if o.zip_max_members < 1 then .error "zip_max_members must be >= 1"
  else if o.zip_max_member_uncompressed_bytes < 1 then
    .error "zip_max_member_uncompressed_bytes must be >= 1"
  else if o.zip_max_total_uncompressed_bytes < 1 then
    .error "zip_max_total_uncompressed_bytes must be >= 1"
  else if o.zip_max_compression_ratio ≤ 0 then .error "zip_max_compression_ratio must be > 0"
  else if o.nested_archive_policy ≠ "skip" ∧ o.nested_archive_policy ≠ "copy" then
    .error "nested_archive_policy must be one of: copy, skip"
  else if o.risky_policy ≠ "warn" ∧ o.risky_policy ≠ "block" then
    .error "risky_policy must be one of: block, warn"
  else .ok ()

/-! ### String and POSIX-path helpers (collaborator contracts of pathlib/fnmatch) -/

/-- Byte-wise (code-point) strict order on strings, as Python compares `str`. -/
def charsLt : List Char → List Char → Bool
  | [], [] => false
  | [], _ :: _ => true
  | _ :: _, [] => false
  | a :: as, b :: bs =>
    if a.val < b.val then true else if b.val < a.val then false else charsLt as bs

/-- Code-point order, non-strict. -/
def charsLe (a b : List Char) : Bool :=
  !(charsLt b a)

def strLtB (a b : String) : Bool := charsLt a.toList b.toList

def strLeB (a b : String) : Bool := charsLe a.toList b.toList

/-- Path components of a POSIX path as `PurePosixPath(name).parts` yields them,
omitting the root entry of an absolute path: duplicate slashes and single-dot
segments are collapsed, `..` is kept. -/
def posixParts (n : String) : List String :=
  ((splitOnChar '/' n.data).map String.mk).filter (fun s => s != "" && s != ".")

/-- `PurePath.suffix` of the final component: the substring from the last dot,
when that dot is neither the first nor the last character of the name. -/
def nameSuffix (base : String) : String :=
  let cs := base.toList
  let idxs := (List.range cs.length).filter (fun i => cs.getD i ' ' == '.')
  match idxs.getLast? with
  | none => ""
  | some i => if 0 < i ∧ i < cs.length - 1 then String.mk (cs.drop i) else ""

/-- `Path(output_name).suffix` for a POSIX member name. -/
def pathSuffix (n : String) : String :=
  match (posixParts n).getLast? with
  | none => ""
  | some base => nameSuffix base

/-- ASCII lower-casing, as `str.lower()` acts on the extension strings used here. -/
def lowerStr (s : String) : String := String.mk (s.data.map Char.toLower)

/-! ### ZIP layer (`_sanitize_zip_members` and helpers) -/

/-- Central-directory data of one archive member (`zipfile.ZipInfo`).  Fields
that the sanitizer merely copies (`date_time`, `comment`, `extra`, ...) are
kept opaque. -/
structure ZipInfo where
  filename : String
  file_size : Int := 0
  compress_size : Int := 0
  flag_bits : Nat := 0
  external_attr : Nat := 0
  date_time : Nat := 0
  compress_type : Nat := 0
  create_system : Nat := 0
  internal_attr : Nat := 0
  comment : String := ""
  extra : String := ""
deriving DecidableEq, Repr

/-- One member of the input archive together with the oracle outcomes of the
external calls the loop body makes for it: `dataLen` is `len(zip_in.read(info))`,
`readOk`/`readErr` model whether that read raises, `imageSan` models
`_sanitize_image_bytes`, `pdfSan` models `_sanitize_pdf_bytes` (payload length
and scan warnings), and `officeNames` models opening the member payload as a
ZIP for the OOXML macro scan. -/
structure ZipEntry where
  info : ZipInfo
  dataLen : Nat := 0
  readOk : Bool := true
  readErr : String := ""
  imageSan : Except String Nat := .ok 0
  pdfSan : Except String (Nat × List WarningItem) := .ok (0, [])
  officeNames : Except String (List String) := .ok []
deriving Repr

/-- Member record as `_write_zip_member` emits it into the output archive. -/
structure OutZipInfo where
  filename : String
  date_time : Nat
  compress_type : Nat
  create_system : Nat
  external_attr : Nat
  comment : String
  extra : String
  internal_attr : Nat
  flag_bits : Nat
deriving DecidableEq, Repr

/-- `_normalized_zip_name`: backslashes become forward slashes. -/
def normalizeZipName (n : String) : String :=
  String.mk (n.data.map (fun c => if c == '\\' then '/' else c))

/-- `_is_unsafe_zip_name`.  `PurePosixPath(name).is_absolute()` coincides with
`name.startswith("/")` for POSIX paths, so the source's two leading checks
collapse into the first disjunct. -/
def isUnsafeZipName (n : String) : Bool :=
  strStartsWith n "/" ||
    (match posixParts n with
     | p :: _ => strEndsWith p ":"
     | [] => false) ||
    (posixParts n).contains ".."

/-- Unix mode taken from the high 16 bits of `external_attr`. -/
def zipModeBits (ea : Nat) : Nat := (ea >>> 16) &&& 0o177777

/-- `stat.S_ISLNK` applied to those mode bits. -/
def isSymlinkAttr (ea : Nat) : Bool := zipModeBits ea &&& 0o170000 == 0o120000

/-- `_zipinfo_is_symlink`. -/
def zipinfoIsSymlink (i : ZipInfo) : Bool := isSymlinkAttr i.external_attr

/-- `ZipInfo.is_dir()`: the stored name ends with a slash. -/
def zipInfoIsDir (i : ZipInfo) : Bool := strEndsWith i.filename "/"

/-- `_zip_compression_ratio`: `none` stands for `float("inf")`. -/
def zipRatioOf (expanded compressed : Int) : Option Rat :=
  if expanded ≤ 0 then some 1
  else if compressed ≤ 0 then none
  else some ((expanded : Rat) / (compressed : Rat))

/-- `ratio > options.zip_max_compression_ratio` with `ratio` possibly infinite
and the cap always finite. -/
def ratioExceeds (r : Option Rat) (cap : Rat) : Bool :=
  match r with
  | none => true
  | some q => decide (cap < q)

/-- `_format_ratio`: one-decimal rendering of the exact ratio ("inf" for the
infinite case); Python's float `%.1f` formatting is modelled by decimal
rounding of the exact rational. -/
def formatRatioStr (r : Option Rat) : String :=
  match r with
  | none => "inf"
  | some q =>
    let n : Int := round (q * 10)
    let ip := n / 10
    let fp := n % 10
    s!"{ip}.{fp}"

/-- `_write_zip_member`: copy the source entry's metadata, clear the encrypted
flag bit (`flag_bits & ~0x1`). -/
def writeZipMember (src : ZipInfo) (outputName : String) : OutZipInfo :=
  { filename := outputName
    date_time := src.date_time
    compress_type := src.compress_type
    create_system := src.create_system
    external_attr := src.external_attr
    comment := src.comment
    extra := src.extra
    internal_attr := src.internal_attr
    flag_bits := 2 * (src.flag_bits / 2) }

/-- Loop state of `_sanitize_zip_members`: the warning set (kept as an
insertion-ordered duplicate-free list), the seen normalized names, the running
uncompressed total, and the members written so far (with payload lengths). -/
structure ZState where
  warnings : List WarningItem := []
  seen : List String := []
  total : Int := 0
  written : List (OutZipInfo × Nat) := []
deriving Repr

/-- Add a warning with Python-set semantics: keep the list duplicate-free. -/
def addW (ws : List WarningItem) (w : WarningItem) : List WarningItem :=
  if ws.contains w then ws else ws ++ [w]

/-- Fold prefixed per-entry PDF warnings into the warning set
(`zip entry '<name>': <message>`). -/
def addPrefixed (fn : String) (ws : List WarningItem) (inner : List WarningItem) :
    List WarningItem :=
  inner.foldl (fun acc w =>
    let m := w.message
    addW acc ⟨w.code, s!"zip entry '{fn}': {m}"⟩) ws

/-- `_scan_office_macro_indicators_bytes`: the internal `try` is modelled by
the `officeNames` oracle. -/
def scanOfficeBytes (officeNames : Except String (List String)) : List WarningItem :=
  match officeNames with
  | .error exc => [⟨"office_ooxml_scan_failed", s!"office OOXML scan failed: {exc}"⟩]
  | .ok names =>
    if names.any (fun n => strEndsWith (lowerStr n) "vbaproject.bin") then
      [⟨"office_macro_indicator_vbaproject",
        "office OOXML contains vbaProject.bin (macro indicator); not removed"⟩]
    else []

/-! Named warning payloads of the member loop (one per `WarningItem` literal
in `_sanitize_zip_members`); naming them keeps the loop body readable. -/

def emptyNameW : WarningItem :=
  ⟨"zip_entry_empty_name", "zip has an empty entry name; skipped"⟩

def unsafePathW (e : ZipEntry) : WarningItem :=
  let fn := e.info.filename
  ⟨"zip_entry_unsafe_path", s!"zip entry '{fn}' has unsafe path; skipped"⟩

def duplicateW (e : ZipEntry) : WarningItem :=
  let fn := e.info.filename
  ⟨"zip_entry_duplicate", s!"zip entry '{fn}' is duplicated; skipped"⟩

def symlinkZipW (e : ZipEntry) : WarningItem :=
  let fn := e.info.filename
  ⟨"zip_entry_symlink", s!"zip entry '{fn}' is a symlink; skipped"⟩

def encryptedW (e : ZipEntry) : WarningItem :=
  let fn := e.info.filename
  ⟨"zip_entry_encrypted", s!"zip entry '{fn}' is encrypted; skipped"⟩

def oversizeW (e : ZipEntry) (o : SanitizeOptions) : WarningItem :=
  let fn := e.info.filename
  let expanded : Int := max e.info.file_size 0
  let cap := o.zip_max_member_uncompressed_bytes
  ⟨"zip_entry_oversize", s!"zip entry '{fn}' expanded size {expanded} exceeds limit {cap}; skipped"⟩

def nestedReadFailW (e : ZipEntry) : WarningItem :=
  let fn := e.info.filename
  let exc := e.readErr
  ⟨"zip_nested_archive_read_failed",
    s!"zip entry '{fn}' failed to read nested archive: {exc}; skipped"⟩

def nestedTotalW (e : ZipEntry) (o : SanitizeOptions) : WarningItem :=
  let fn := e.info.filename
  let cap := o.zip_max_total_uncompressed_bytes
  ⟨"zip_total_expanded_limit_exceeded",
    s!"zip expanded size limit exceeded ({cap} bytes); nested archive '{fn}' skipped"⟩

def nestedCopiedW (e : ZipEntry) : WarningItem :=
  let fn := e.info.filename
  ⟨"zip_nested_archive_copied", s!"zip entry '{fn}' is nested archive; copied by policy"⟩

def nestedSkippedW (e : ZipEntry) : WarningItem :=
  let fn := e.info.filename
  ⟨"zip_nested_archive_skipped", s!"zip entry '{fn}' is nested archive; skipped by policy"⟩

def totalExceededW (e : ZipEntry) (o : SanitizeOptions) : WarningItem :=
  let fn := e.info.filename
  let cap := o.zip_max_total_uncompressed_bytes
  ⟨"zip_total_expanded_limit_exceeded",
    s!"zip expanded size limit exceeded ({cap} bytes); entry '{fn}' and remaining data may be skipped"⟩

def sanitizeFailedW (e : ZipEntry) (exc : String) : WarningItem :=
  let fn := e.info.filename
  ⟨"zip_entry_sanitize_failed", s!"zip entry '{fn}' failed to sanitize: {exc}; skipped"⟩

def officeMacroZipW (e : ZipEntry) (suffix : String) : WarningItem :=
  let fn := e.info.filename
  ⟨"office_macro_enabled",
    s!"zip entry '{fn}': office macro-enabled file type ({suffix}); macros are not removed"⟩

def unsupportedCopiedZipW (e : ZipEntry) : WarningItem :=
  let fn := e.info.filename
  ⟨"zip_entry_unsupported_copied", s!"zip entry '{fn}' unsupported; copied as-is"⟩

def unsupportedSkippedZipW (e : ZipEntry) : WarningItem :=
  let fn := e.info.filename
  ⟨"zip_entry_unsupported_skipped", s!"zip entry '{fn}' unsupported; skipped"⟩

/-- Tail of the member loop body after the guardrails: per-suffix dispatch,
total-size accounting, per-member sanitization and the write.  `writeOut`
false corresponds to `zip_out is None` (dry-run scan). -/
def zipDispatch (o : SanitizeOptions) (writeOut : Bool) (st : ZState) (e : ZipEntry)
    (outputName suffix : String) (expanded : Int) : Except String ZState :=
  if suffix == ".zip" then
    if o.nested_archive_policy == "copy" then
      if e.readOk = false then
        .ok { st with warnings := addW st.warnings (nestedReadFailW e) }
      else if o.zip_max_total_uncompressed_bytes < st.total + (e.dataLen : Int) then
        .ok { st with warnings := addW st.warnings (nestedTotalW e o) }
      else
        let st := { st with
          total := st.total + (e.dataLen : Int)
          warnings := addW st.warnings (nestedCopiedW e) }
        .ok (if writeOut then
          { st with written := st.written ++ [(writeZipMember e.info outputName, e.dataLen)] }
        else st)
    else
      .ok { st with warnings := addW st.warnings (nestedSkippedW e) }
  else if o.zip_max_total_uncompressed_bytes < st.total + expanded then
    .ok { st with warnings := addW st.warnings (totalExceededW e o) }
  else if e.readOk = false then
    .error e.readErr
  else
    let st := { st with total := st.total + (e.dataLen : Int) }
    if imageExts.contains suffix then
      match e.imageSan with
      | .error exc => .ok { st with warnings := addW st.warnings (sanitizeFailedW e exc) }
      | .ok payloadLen =>
        .ok (if writeOut then
          { st with written := st.written ++ [(writeZipMember e.info outputName, payloadLen)] }
        else st)
    else if suffix == ".pdf" then
      match e.pdfSan with
      | .error exc => .ok { st with warnings := addW st.warnings (sanitizeFailedW e exc) }
      | .ok (payloadLen, pws) =>
        let st := { st with warnings := addPrefixed e.info.filename st.warnings pws }
        .ok (if writeOut then
          { st with written := st.written ++ [(writeZipMember e.info outputName, payloadLen)] }
        else st)
    else if o.copy_unsupported then
      let st :=
        if officeOoxmlExts.contains suffix then
          let st :=
            if officeMacroExts.contains suffix then
              { st with warnings := addW st.warnings (officeMacroZipW e suffix) }
            else st
          { st with
            warnings := addPrefixed e.info.filename st.warnings (scanOfficeBytes e.officeNames) }
        else st
      let st := { st with warnings := addW st.warnings (unsupportedCopiedZipW e) }
      .ok (if writeOut then
        { st with written := st.written ++ [(writeZipMember e.info outputName, e.dataLen)] }
      else st)
    else
      let st :=
        if officeMacroExts.contains suffix then
          { st with warnings := addW st.warnings (officeMacroZipW e suffix) }
        else st
      .ok { st with warnings := addW st.warnings (unsupportedSkippedZipW e) }

/-- The `zip_entry_compression_ratio_exceeded` warning of the ratio guardrail. -/
def ratioWarnW (e : ZipEntry) (o : SanitizeOptions) : WarningItem :=
  let fn := e.info.filename
  let rs := formatRatioStr (zipRatioOf (max e.info.file_size 0) (max e.info.compress_size 0))
  let cs := formatRatioStr (some o.zip_max_compression_ratio)
  ⟨"zip_entry_compression_ratio_exceeded",
    s!"zip entry '{fn}' compression ratio {rs} exceeds limit {cs}; skipped"⟩

/-- One iteration of the member loop of `_sanitize_zip_members` (the guardrail
chain in source order, then `zipDispatch`). -/
def processEntry (o : SanitizeOptions) (writeOut : Bool) (st : ZState) (e : ZipEntry) :
    Except String ZState :=
  let outputName := normalizeZipName e.info.filename
  if outputName == "" then
    .ok { st with warnings := addW st.warnings emptyNameW }
  else if isUnsafeZipName outputName then
    .ok { st with warnings := addW st.warnings (unsafePathW e) }
  else if st.seen.contains outputName then
    .ok { st with warnings := addW st.warnings (duplicateW e) }
  else
    let st := { st with seen := st.seen ++ [outputName] }
    if zipinfoIsSymlink e.info then
      .ok { st with warnings := addW st.warnings (symlinkZipW e) }
    else if zipInfoIsDir e.info then
      .ok (if writeOut then
        { st with written := st.written ++ [(writeZipMember e.info outputName, 0)] }
      else st)
    else if e.info.flag_bits % 2 == 1 then
      .ok { st with warnings := addW st.warnings (encryptedW e) }
    else
      let suffix := lowerStr (pathSuffix outputName)
      let expanded : Int := max e.info.file_size 0
      if o.zip_max_member_uncompressed_bytes < expanded then
        .ok { st with warnings := addW st.warnings (oversizeW e o) }
      else
        let compressed : Int := max e.info.compress_size 0
        if ratioExceeds (zipRatioOf expanded compressed) o.zip_max_compression_ratio then
          .ok { st with warnings := addW st.warnings (ratioWarnW e o) }
        else
          zipDispatch o writeOut st e outputName suffix expanded

/-- The member loop itself. -/
def runEntries (o : SanitizeOptions) (writeOut : Bool) :
    ZState → List ZipEntry → Except String ZState
  | st, [] => .ok st
  | st, e :: es =>
    match processEntry o writeOut st e with
    | .error msg => .error msg
    | .ok st' => runEntries o writeOut st' es

/-- Stable insertion sort, standing in for Python's stable `sorted`. -/
def insortBy (le : α → α → Bool) (a : α) : List α → List α
  | [] => [a]
  | b :: bs => if le a b then a :: b :: bs else b :: insortBy le a bs

def sortBy (le : α → α → Bool) : List α → List α
  | [] => []
  | a :: as => insortBy le a (sortBy le as)

/-- Warning order used at the end of the archive scan: `(code, message)`. -/
def warnLe (a b : WarningItem) : Bool :=
  strLtB a.code b.code || (a.code == b.code && strLeB a.message b.message)

def truncatedW (n cap : Int) : WarningItem :=
  ⟨"zip_entries_truncated", s!"zip has {n} entries; processing limited to {cap} by policy"⟩

/-- `sorted(zip_in.infolist(), key=_normalized_zip_name)`. -/
def entryLe (a b : ZipEntry) : Bool :=
  strLeB (normalizeZipName a.info.filename) (normalizeZipName b.info.filename)

/-- `_sanitize_zip_members`: sort members, apply the member cap, run the loop,
return the `(code, message)`-sorted warning set and the members written.
`writeOut = false` corresponds to the dry-run scan (`zip_out is None`). -/
def sanitizeZipMembers (o : SanitizeOptions) (writeOut : Bool) (entries : List ZipEntry) :
    Except String (List WarningItem × List (OutZipInfo × Nat)) :=
  let infos := sortBy entryLe entries
  let n : Int := infos.length
  let cap := o.zip_max_members
  let init : ZState :=
    if cap < n then { warnings := [truncatedW n cap] } else {}
  let infos := if cap < n then infos.take cap.toNat else infos
  match runEntries o writeOut init infos with
  | .error msg => .error msg
  | .ok st => .ok (sortBy warnLe st.warnings, st.written)


/-! ### Dispatcher layer (`sanitize_path`, `_sanitize_one`, `_sanitize_file`) -/

/-- Abstract per-file environment consumed by `_sanitize_one`/`_sanitize_file`.
Path-derived attributes (`str(file)`, `file.name`, `file.suffix.lower()`, the
relative POSIX path and its segments) and filesystem probes (symlink test,
resolved-path comparisons, `output_path.exists()`) are inputs; the oracle
fields record the outcomes of the external calls of `_sanitize_file`:
`officeNames` for the OOXML `zipfile.ZipFile` open, `imageOp` for
`_sanitize_image`/`_validate_image_readable`, `pdfOp` for `PdfReader` plus
`_scan_pdf_risks` (and page copying), `pdfWrite` for the PDF temp-write and
rename, `zipEntries` for opening the archive and listing it, `zipWrite` for
the final `os.replace` of the archive, `copyOp` for `_copy_atomic`.  The
output path computed by `_compute_output_path` is abstracted to `outPathStr`
(no frozen claim depends on its internal search). -/
structure FileEnv where
  pathStr : String
  name : String := ""
  suffix : String := ""
  relOk : Bool := true
  relPosix : String := ""
  relParts : List String := []
  isSymlink : Bool := false
  resolvedIsReport : Bool := false
  resolvedUnderOut : Bool := false
  outPathStr : String := ""
  outputExists : Bool := false
  officeNames : Except String (List String) := .ok []
  imageOp : Except String Unit := .ok ()
  pdfOp : Except String (List WarningItem) := .ok []
  pdfWrite : Except String Unit := .ok ()
  zipEntries : Except String (List ZipEntry) := .ok []
  zipWrite : Except String Unit := .ok ()
  copyOp : Except String Unit := .ok ()
deriving Repr

/-- `_scan_office_macro_indicators_path` (the `try` around the ZIP open is
modelled by the `officeNames` oracle). -/
def scanOfficePath (suffix : String) (officeNames : Except String (List String)) :
    List WarningItem :=
  (if officeMacroExts.contains suffix then
    [⟨"office_macro_enabled",
      s!"office macro-enabled file type ({suffix}); macros are not removed"⟩]
  else []) ++
  (if officeOoxmlExts.contains suffix then
    match officeNames with
    | .error exc => [⟨"office_ooxml_scan_failed", s!"office OOXML scan failed: {exc}"⟩]
    | .ok names =>
      if names.any (fun n => strEndsWith (lowerStr n) "vbaproject.bin") then
        [⟨"office_macro_indicator_vbaproject",
          "office OOXML contains vbaProject.bin (macro indicator); not removed"⟩]
      else []
  else [])

def mkItem (ip : String) (op : Option String) (act : String) (ws : List WarningItem)
    (err : Option String := none) : ReportItem :=
  { input_path := ip, output_path := op, action := act, warnings := ws, error := err }

def outputExistsW : WarningItem :=
  ⟨"output_exists", "output exists; use --overwrite to replace"⟩

def symlinkW : WarningItem := ⟨"symlink_skipped", "symlink skipped"⟩

def unsupportedWouldCopyW : WarningItem :=
  ⟨"unsupported_would_copy", "unsupported file type; would copy as-is"⟩

def unsupportedCopiedW : WarningItem :=
  ⟨"unsupported_copied", "unsupported file type; copied as-is"⟩

def unsupportedSkippedW : WarningItem :=
  ⟨"unsupported_skipped", "unsupported file type; skipped"⟩

/-- The `warnings` accumulator right after the OOXML scan step of
`_sanitize_file` (empty for non-OOXML extensions). -/
def officeWs (env : FileEnv) : List WarningItem :=
  if officeOoxmlExts.contains env.suffix then scanOfficePath env.suffix env.officeNames
  else []

/-- `_sanitize_file`.  The second component records whether the engine did (in
a write run) or would (in a dry run) place output bytes at the computed output
path for this item; exceptions (`.error` oracles) yield the generic `error`
record, `BlockedByPolicy` yields `blocked` with no output, exactly as in the
source.  The image branch consults its oracle once for either mode, which is
the same case split as the source's `dry_run` test around
`_validate_image_readable`/`_sanitize_image`. -/
def sanitizeFile (env : FileEnv) (o : SanitizeOptions) : ReportItem × Bool :=
  if env.outputExists && !o.overwrite then
    (mkItem env.pathStr (some env.outPathStr) "skipped" [outputExistsW], false)
  else
    let ws : List WarningItem := officeWs env
    if officeOoxmlExts.contains env.suffix && o.risky_policy == "block" &&
        hasRiskyFindings ws then
      (mkItem env.pathStr none (if o.dry_run then "would_block" else "blocked")
        (ws ++ [policyBlockedW]), false)
    else if imageExts.contains env.suffix then
      match env.imageOp with
      | .error exc => (mkItem env.pathStr (some env.outPathStr) "error" ws (some exc), false)
      | .ok _ =>
        if o.dry_run then
          (mkItem env.pathStr (some env.outPathStr) "would_image_sanitize" ws, true)
        else (mkItem env.pathStr (some env.outPathStr) "image_sanitized" ws, true)
    else if env.suffix == ".pdf" then
      if o.dry_run then
        match env.pdfOp with
        | .error exc => (mkItem env.pathStr (some env.outPathStr) "error" ws (some exc), false)
        | .ok pws =>
          let ws2 := ws ++ pws
          if o.risky_policy == "block" && hasRiskyFindings ws2 then
            (mkItem env.pathStr none "would_block" (ws2 ++ [policyBlockedW]), false)
          else (mkItem env.pathStr (some env.outPathStr) "would_pdf_sanitize" ws2, true)
      else
        match env.pdfOp with
        | .error exc => (mkItem env.pathStr (some env.outPathStr) "error" ws (some exc), false)
        | .ok pws =>
          if o.risky_policy == "block" && hasRiskyFindings pws then
            (mkItem env.pathStr none "blocked" (pws ++ [policyBlockedW]), false)
          else
            match env.pdfWrite with
            | .error exc =>
              (mkItem env.pathStr (some env.outPathStr) "error" ws (some exc), false)
            | .ok _ =>
              (mkItem env.pathStr (some env.outPathStr) "pdf_sanitized" (ws ++ pws), true)
    else if env.suffix == ".zip" then
      if o.dry_run then
        match env.zipEntries with
        | .error exc => (mkItem env.pathStr (some env.outPathStr) "error" ws (some exc), false)
        | .ok es =>
          match sanitizeZipMembers o false es with
          | .error exc =>
            (mkItem env.pathStr (some env.outPathStr) "error" ws (some exc), false)
          | .ok (zws, _) =>
            let ws2 := ws ++ zws
            if o.risky_policy == "block" && hasRiskyFindings ws2 then
              (mkItem env.pathStr none "would_block" (ws2 ++ [policyBlockedW]), false)
            else (mkItem env.pathStr (some env.outPathStr) "would_zip_sanitize" ws2, true)
      else
        match env.zipEntries with
        | .error exc => (mkItem env.pathStr (some env.outPathStr) "error" ws (some exc), false)
        | .ok es =>
          match sanitizeZipMembers o true es with
          | .error exc =>
            (mkItem env.pathStr (some env.outPathStr) "error" ws (some exc), false)
          | .ok (zws, _) =>
            if o.risky_policy == "block" && hasRiskyFindings zws then
              (mkItem env.pathStr none "blocked" (zws ++ [policyBlockedW]), false)
            else
              match env.zipWrite with
              | .error exc =>
                (mkItem env.pathStr (some env.outPathStr) "error" ws (some exc), false)
              | .ok _ =>
                (mkItem env.pathStr (some env.outPathStr) "zip_sanitized" (ws ++ zws), true)
    else if o.copy_unsupported then
      if o.dry_run then
        (mkItem env.pathStr (some env.outPathStr) "would_copy"
          (ws ++ [unsupportedWouldCopyW]), true)
      else
        match env.copyOp with
        | .error exc => (mkItem env.pathStr (some env.outPathStr) "error" ws (some exc), false)
        | .ok _ =>
          (mkItem env.pathStr (some env.outPathStr) "copied" (ws ++ [unsupportedCopiedW]), true)
    else
      (mkItem env.pathStr none (if o.dry_run then "would_skip" else "skipped")
        (ws ++ [unsupportedSkippedW]), false)

/-! ### Glob matching (`fnmatch.fnmatchcase` and `PurePosixPath.match`) -/

/-- Character-class membership: single characters and `a-b` ranges. -/
def inClassB : List Char → Char → Bool
  | [], _ => false
  | a :: '-' :: b :: rest, c => (a.val ≤ c.val && c.val ≤ b.val) || inClassB rest c
  | a :: rest, c => a == c || inClassB rest c

/-- Scan to the closing `]` of a character class. -/
def takeClass : List Char → Option (List Char × List Char)
  | [] => none
  | ']' :: rest => some ([], rest)
  | c :: rest =>
    match takeClass rest with
    | none => none
    | some (body, rest2) => some (c :: body, rest2)

/-- Split a `[...]` class body off a pattern tail, honouring the fnmatch rule
that a `]` immediately after `[` or `[!` is literal. -/
def classSplit (ps : List Char) : Option (List Char × List Char) :=
  match ps with
  | '!' :: ']' :: rest => (takeClass rest).map (fun p => ('!' :: ']' :: p.1, p.2))
  | '!' :: rest => (takeClass rest).map (fun p => ('!' :: p.1, p.2))
  | ']' :: rest => (takeClass rest).map (fun p => (']' :: p.1, p.2))
  | _ => takeClass ps

def matchClassB (cls : List Char) (c : Char) : Bool :=
  match cls with
  | '!' :: body => !(inClassB body c)
  | body => inClassB body c

/-- Glob matching as `fnmatch.fnmatchcase` performs it (`*`, `?`, `[...]`,
case-sensitive).  Every recursive call shrinks `|s| + |p|`, so the explicit
fuel — set above that sum at the entry point — is never exhausted. -/
def globMatchFuel : Nat → List Char → List Char → Bool
  | 0, _, _ => false
  | _ + 1, [], [] => true
  | fuel + 1, [], '*' :: ps => globMatchFuel fuel [] ps
  | _ + 1, [], _ :: _ => false
  | _ + 1, _ :: _, [] => false
  | fuel + 1, c :: cs, p :: ps =>
    if p == '*' then globMatchFuel fuel (c :: cs) ps || globMatchFuel fuel cs (p :: ps)
    else if p == '?' then globMatchFuel fuel cs ps
    else if p == '[' then
      match classSplit ps with
      | some (cls, rest) => matchClassB cls c && globMatchFuel fuel cs rest
      | none => p == c && globMatchFuel fuel cs ps
    else p == c && globMatchFuel fuel cs ps

def fnmatchB (s pat : String) : Bool :=
  globMatchFuel (s.length + pat.length + 1) s.toList pat.toList

/-- `PurePosixPath(rel_posix).match(pat)`: an absolute pattern must match the
whole path; a relative pattern matches the right-most path segments,
segment-wise via fnmatch.  (An empty pattern raises in Python and is
unreachable from `_match_exclude_glob`.) -/
def pathMatch (pathStr pat : String) : Bool :=
  let patParts := posixParts pat
  let pathParts := posixParts pathStr
  if strStartsWith pat "/" then
    strStartsWith pathStr "/" && patParts.length == pathParts.length &&
      (List.zip pathParts patParts).all (fun pr => fnmatchB pr.1 pr.2)
  else
    !patParts.isEmpty && decide (patParts.length ≤ pathParts.length) &&
      (List.zip (pathParts.drop (pathParts.length - patParts.length)) patParts).all
        (fun pr => fnmatchB pr.1 pr.2)

/-- `_match_exclude_glob`: first matching pattern wins; patterns with `/` (or
a leading `**`) match the relative POSIX path, all others match any single
path segment. -/
def matchExcludeGlob (env : FileEnv) (globs : List String) : Option String :=
  if globs.isEmpty then none
  else
    let relPosix := if env.relOk then env.relPosix else env.name
    let relParts := if env.relOk then env.relParts else [env.name]
    globs.findSome? (fun raw =>
      let pat := String.mk (raw.data.map (fun c => if c == '\\' then '/' else c))
      if strContainsChar pat '/' || strStartsWith pat "**" then
        if pathMatch relPosix pat then some raw else none
      else if relParts.any (fun part => fnmatchB part pat) then some raw
      else none)

def excludedItem (env : FileEnv) (pat : String) : ReportItem :=
  mkItem env.pathStr none "excluded"
    [⟨"excluded_by_pattern", s!"excluded by pattern: {pat}"⟩]

/-- `_sanitize_one`: exclusion, symlink policy, the two silent self-filters,
then `_sanitize_file` on the computed output path.  `none` models the
silently-dropped items. -/
def sanitizeOne (env : FileEnv) (o : SanitizeOptions) : Option (ReportItem × Bool) :=
  match matchExcludeGlob env o.exclude_globs with
  | some pat => some (excludedItem env pat, false)
  | none =>
    if o.skip_symlinks && env.isSymlink then
      some (mkItem env.pathStr none "skipped" [symlinkW], false)
    else if env.resolvedIsReport then none
    else if env.resolvedUnderOut then none
    else some (sanitizeFile env o)

/-- `sanitize_path`.  `files` is the deterministic traversal produced by
`_iter_files`: every regular file under the input root in lexicographic
relative-POSIX order (a single-file input is the one-element list); the glob
options play no part in producing it.  A `.error` result models the
`ValueError` that `_validate_options` raises before the report file is
opened; an `.ok` result carries the emitted report items (with their
did-or-would-place-output bits) and the exit code. -/
def sanitizePath (files : List FileEnv) (o : SanitizeOptions) :
    Except String (List (ReportItem × Bool) × Nat) :=
  match validateOptions o with
  | .error exc => .error exc
  | .ok _ =>
    let items := files.filterMap (fun f => sanitizeOne f o)
    let errN := (items.filter (fun it => it.1.action == "error" || it.1.action == "blocked")).length
    .ok (items, if errN == 0 then 0 else 2)


/-! ### Engine parts referenced by the repository's CLI and tests but missing
from the src/ sanitizer: the content-type sniffer, the allow-extension gate
and the report-version field.  These are modelled from the specification. -/

/-- Content classification produced by the sniffer (spec §4.2 / §9). -/
inductive CType where
  | image
  | pdf
  | zipc
  | ooxml
  | other
deriving DecidableEq, Repr

/-- Modelled from the spec: the content-type sniffer of §4.2, missing from the
src/ sanitizer (the tests exercise it via `content_type_detected` warnings).
It reads the leading bytes: JPEG/PNG/WebP magics, `%PDF-`, and `PK\x03\x04`;
for a ZIP container, the probed member list decides the OOXML
sub-classification (`[Content_Types].xml` plus some `*.xml` part). -/
def sniffContentType (bytes : List Nat) (zipNames : List String) : CType :=
  if List.isPrefixOf [0xFF, 0xD8, 0xFF] bytes then .image
  else if List.isPrefixOf [0x89, 0x50, 0x4E, 0x47, 0x0D, 0x0A, 0x1A, 0x0A] bytes then .image
  else if List.isPrefixOf [0x52, 0x49, 0x46, 0x46] bytes &&
      (bytes.drop 8).take 4 == [0x57, 0x45, 0x42, 0x50] then .image
  else if List.isPrefixOf [0x25, 0x50, 0x44, 0x46, 0x2D] bytes then .pdf
  else if List.isPrefixOf [0x50, 0x4B, 0x03, 0x04] bytes then
    if zipNames.contains "[Content_Types].xml" &&
        zipNames.any (fun n => strEndsWith n ".xml") then
      .ooxml
    else .zipc
  else .other

/-- Classification the file extension claims, over the extension sets of the
src/ sanitizer. -/
def extContentType (suffix : String) : CType :=
  if imageExts.contains suffix then .image
  else if suffix == ".pdf" then .pdf
  else if suffix == ".zip" then .zipc
  else if officeOoxmlExts.contains suffix then .ooxml
  else .other

/-- Modelled from the spec: the sniffing dispatcher of §4.2, missing from the
src/ sanitizer.  The sniff result decides which sanitizer runs; when it
overrides the extension toward a sanitizable format a
`content_type_detected` warning is emitted, and when the extension claims a
sanitizable format but the bytes disagree the file is treated as unsupported
with a `content_type_mismatch` warning. -/
def specDispatch (bytes : List Nat) (zipNames : List String) (suffix : String) :
    CType × List WarningItem :=
  let s := sniffContentType bytes zipNames
  let e := extContentType suffix
  match s with
  | .other =>
    if e ≠ .other then
      (.other,
        [⟨"content_type_mismatch",
          s!"extension {suffix} does not match file content; treated as unsupported"⟩])
    else (.other, [])
  | sType =>
    if sType = e then (sType, [])
    else
      (sType,
        [⟨"content_type_detected", "content type detected by sniffing; extension overridden"⟩])

/-- Modelled from the spec: the `allow_exts` option and its gate (§4.1 step 4),
missing from the src/ sanitizer (the CLI passes `allow_exts` and the tests
assert `allowlist_skipped`).  The gate sits after exclusion, the symlink
policy and the self-filters, and overrides `copy_unsupported`. -/
def sanitizeOneWithAllowlist (allowExts : List String) (env : FileEnv) (o : SanitizeOptions) :
    Option (ReportItem × Bool) :=
  match matchExcludeGlob env o.exclude_globs with
  | some pat => some (excludedItem env pat, false)
  | none =>
    if o.skip_symlinks && env.isSymlink then
      some (mkItem env.pathStr none "skipped" [symlinkW], false)
    else if env.resolvedIsReport then none
    else if env.resolvedUnderOut then none
    else if !allowExts.isEmpty && !allowExts.contains env.suffix then
      some (mkItem env.pathStr none "skipped"
        [⟨"allowlist_skipped", "extension not in allow list; skipped"⟩], false)
    else some (sanitizeFile env o)

/-- JSON values, for the report schema. -/
inductive JVal where
  | s (v : String)
  | i (v : Int)
  | null
  | arr (vs : List JVal)
  | obj (fs : List (String × JVal))

/-- Modelled from the spec: the `report_version` integer (§4.8; `REPORT_VERSION`
is imported from the sanitizer by the CLI and asserted by the tests, but no
definition exists under src/).  Its concrete value is immaterial here. -/
def REPORT_VERSION : Int := 1

def warningJ (w : WarningItem) : JVal :=
  .obj [("code", .s w.code), ("message", .s w.message)]

/-- Modelled from the spec: serialization of one report record per §3's schema,
leading with the `report_version` field (the src/ `ReportItem.to_dict` lacks
it, contradicting the repository's own tests). -/
def specToDict (it : ReportItem) : List (String × JVal) :=
  [("report_version", .i REPORT_VERSION),
   ("input_path", .s it.input_path),
   ("output_path", match it.output_path with | none => .null | some p => .s p),
   ("action", .s it.action),
   ("warnings", .arr (it.warnings.map warningJ)),
   ("error", match it.error with | none => .null | some e => .s e)]

/-- Modelled from the spec: the JSONL lines a run writes (§4.8), one record per
emitted item, in emission order. -/
def specReportLines (files : List FileEnv) (o : SanitizeOptions) :
    List (List (String × JVal)) :=
  match sanitizePath files o with
  | .error _ => []
  | .ok (items, _) => items.map (fun it => specToDict it.1)


/-! ### Helper lemmas -/

theorem mem_addW {ws : List WarningItem} {v w : WarningItem} (h : w ∈ addW ws v) :
    w ∈ ws ∨ w = v := by
  unfold addW at h
  split at h
  · exact Or.inl h
  · rcases List.mem_append.mp h with h1 | h1
    · exact Or.inl h1
    · exact Or.inr (List.mem_singleton.mp h1)

theorem self_mem_addW (ws : List WarningItem) (v : WarningItem) : v ∈ addW ws v := by
  unfold addW
  split
  · exact List.mem_of_elem_eq_true (by assumption)
  · simp

theorem mem_addPrefixed {fn : String} {ws inner : List WarningItem} {w : WarningItem}
    (h : w ∈ addPrefixed fn ws inner) : w ∈ ws ∨ ∃ w0 ∈ inner, w.code = w0.code := by
  induction inner generalizing ws with
  | nil => exact Or.inl h
  | cons a rest ih =>
    unfold addPrefixed at h ih
    simp only [List.foldl_cons] at h
    rcases ih h with h1 | h1
    · rcases mem_addW h1 with h2 | h2
      · exact Or.inl h2
      · subst h2
        exact Or.inr ⟨a, by simp⟩
    · rcases h1 with ⟨w0, hw0, hc⟩
      exact Or.inr ⟨w0, by simp [hw0], hc⟩

/-- Every warning `_scan_office_macro_indicators_path` can produce carries one
of the three office codes. -/
theorem scanOfficePath_codes (suffix : String) (names : Except String (List String)) :
    ∀ w ∈ scanOfficePath suffix names,
      w.code = "office_macro_enabled" ∨ w.code = "office_ooxml_scan_failed" ∨
        w.code = "office_macro_indicator_vbaproject" := by
  intro w hw
  unfold scanOfficePath at hw
  rcases names with exc | nm <;>
    rcases List.mem_append.mp hw with hw1 | hw1 <;>
      (repeat' split at hw1) <;> simp_all

/-- Every office code is risky. -/
theorem scanOfficePath_risky (suffix : String) (names : Except String (List String)) :
    ∀ w ∈ scanOfficePath suffix names, isRiskyWarning w = true := by
  intro w hw
  rcases scanOfficePath_codes suffix names w hw with h | h | h <;>
    simp [isRiskyWarning, h]

/-! ### Claim theorems -/

/-- A predicate spelling out exactly the invalid-option conditions listed by
claim C10; compared below against the source's `validateOptions`. -/
def claimInvalidOptions (o : SanitizeOptions) : Prop :=
  o.zip_max_members < 1 ∨ o.zip_max_member_uncompressed_bytes < 1 ∨
    o.zip_max_total_uncompressed_bytes < 1 ∨ o.zip_max_compression_ratio ≤ 0 ∨
    (o.nested_archive_policy ≠ "skip" ∧ o.nested_archive_policy ≠ "copy") ∨
    (o.risky_policy ≠ "warn" ∧ o.risky_policy ≠ "block")

theorem validateOptions_error_iff (o : SanitizeOptions) :
    (∃ e, validateOptions o = .error e) ↔ claimInvalidOptions o := by
  unfold validateOptions claimInvalidOptions
  split_ifs <;> simp_all

/-- C10: `sanitize_path` raises a `ValueError` before the report file is even
opened (the run yields no report items) exactly when one of the six invalid
option conditions holds; any other option values validate silently. -/
theorem sanitizePath_valueError_iff_invalid_options (files : List FileEnv)
    (o : SanitizeOptions) :
    (∃ e, sanitizePath files o = .error e) ↔ claimInvalidOptions o := by
  rw [← validateOptions_error_iff o]
  unfold sanitizePath
  constructor
  · rintro ⟨e, he⟩
    cases hv : validateOptions o with
    | error x => exact ⟨x, rfl⟩
    | ok u => rw [hv] at he; cases he
  · rintro ⟨e, he⟩
    rw [he]
    exact ⟨e, rfl⟩

/-- C8: the exit code of a completed run is 0 when no emitted item carries
action `error` or `blocked`, and 2 when at least one does. -/
theorem sanitizePath_exit_code (files : List FileEnv) (o : SanitizeOptions)
    (items : List (ReportItem × Bool)) (code : Nat)
    (h : sanitizePath files o = .ok (items, code)) :
    (code = 0 ↔ ∀ itp ∈ items, itp.1.action ≠ "error" ∧ itp.1.action ≠ "blocked") ∧
      (code = 2 ↔ ∃ itp ∈ items, itp.1.action = "error" ∨ itp.1.action = "blocked") := by
  unfold sanitizePath at h
  cases hv : validateOptions o with
  | error x => rw [hv] at h; cases h
  | ok u =>
    rw [hv] at h
    simp only [Except.ok.injEq, Prod.mk.injEq] at h
    obtain ⟨hitems, hcode⟩ := h
    subst hitems
    by_cases hz :
        ((files.filterMap (fun f => sanitizeOne f o)).filter
          (fun it => it.1.action == "error" || it.1.action == "blocked")).length = 0
    · have hc : code = 0 := by rw [← hcode]; simp [hz]
      subst hc
      have hnone : ∀ itp ∈ files.filterMap (fun f => sanitizeOne f o),
          itp.1.action ≠ "error" ∧ itp.1.action ≠ "blocked" := by
        intro itp hm
        have hnil := List.length_eq_zero.mp hz
        have := List.filter_eq_nil_iff.mp hnil itp hm
        simp at this
        exact this
      constructor
      · exact ⟨fun _ => hnone, fun _ => rfl⟩
      · constructor
        · intro h0
          exact absurd h0 (by decide)
        · rintro ⟨itp, hm, hact⟩
          rcases hnone itp hm with ⟨h1, h2⟩
          rcases hact with hact | hact
          · exact absurd hact h1
          · exact absurd hact h2
    · have hc : code = 2 := by rw [← hcode]; simp [hz]
      subst hc
      have hne : ((files.filterMap (fun f => sanitizeOne f o)).filter
          (fun it => it.1.action == "error" || it.1.action == "blocked")) ≠ [] := by
        intro hnil
        exact hz (by rw [hnil]; rfl)
      rcases List.exists_mem_of_ne_nil _ hne with ⟨itp, hm⟩
      have hm2 := List.mem_of_mem_filter hm
      have hp := List.of_mem_filter hm
      simp only [Bool.or_eq_true, beq_iff_eq] at hp
      constructor
      · constructor
        · intro h0
          exact absurd h0 (by decide)
        · intro hall
          rcases hall itp hm2 with ⟨h1, h2⟩
          rcases hp with hact | hact
          · exact absurd hact h1
          · exact absurd hact h2
      · exact ⟨fun _ => ⟨itp, hm2, hp⟩, fun _ => rfl⟩

def w8env : FileEnv :=
  { pathStr := "/in/a.txt", suffix := ".txt", outPathStr := "/out/a.txt" }

/-- C8 witness: a concrete one-file run returns exit code 0 and indeed has no
`error`/`blocked` item. -/
theorem sanitizePath_exit_code_witness :
    (0 : Nat) = 0 ↔
      ∀ itp ∈ [(mkItem "/in/a.txt" (some "/out/a.txt") "copied" [unsupportedCopiedW], true)],
        itp.1.action ≠ "error" ∧ itp.1.action ≠ "blocked" :=
  (sanitizePath_exit_code [w8env] {}
    [(mkItem "/in/a.txt" (some "/out/a.txt") "copied" [unsupportedCopiedW], true)] 0 (by rfl)).1


/-- C9: the first JSONL record of a run carries the integer `report_version`
field of the report schema. -/
theorem first_record_has_report_version (files : List FileEnv) (o : SanitizeOptions)
    (fields : List (String × JVal))
    (h : (specReportLines files o).head? = some fields) :
    ("report_version", JVal.i REPORT_VERSION) ∈ fields := by
  unfold specReportLines at h
  cases hv : sanitizePath files o with
  | error e => rw [hv] at h; cases h
  | ok r =>
    rw [hv] at h
    rcases r with ⟨items, code⟩
    cases items with
    | nil => cases h
    | cons it rest =>
      simp only [List.map_cons, List.head?_cons, Option.some.injEq] at h
      subst h
      unfold specToDict
      simp

/-- C9 witness: the first record of a concrete one-file run contains
`report_version`. -/
theorem first_record_has_report_version_witness :
    ("report_version", JVal.i REPORT_VERSION) ∈
      specToDict (mkItem "/in/a.txt" (some "/out/a.txt") "copied" [unsupportedCopiedW]) :=
  first_record_has_report_version [w8env] {}
    (specToDict (mkItem "/in/a.txt" (some "/out/a.txt") "copied" [unsupportedCopiedW]))
    (by rfl)

/-- C3: whenever the sniffed content type and the extension-claimed content
type disagree, the sniff result decides which sanitizer runs — not the
extension — and a `content_type_detected` or `content_type_mismatch` warning
is emitted. -/
theorem sniff_decides_over_extension (bytes : List Nat) (zipNames : List String)
    (suffix : String)
    (h : sniffContentType bytes zipNames ≠ extContentType suffix) :
    (specDispatch bytes zipNames suffix).1 = sniffContentType bytes zipNames ∧
      ∃ w ∈ (specDispatch bytes zipNames suffix).2,
        w.code = "content_type_detected" ∨ w.code = "content_type_mismatch" := by
  unfold specDispatch
  cases hs : sniffContentType bytes zipNames <;> rw [hs] at h
  case other =>
    have he : extContentType suffix ≠ CType.other := fun hc => h hc.symm
    constructor
    · simp [he]
    · refine ⟨⟨"content_type_mismatch",
        s!"extension {suffix} does not match file content; treated as unsupported"⟩,
        by simp [he], by simp⟩
  all_goals
    constructor
    · simp [h]
    · exact ⟨⟨"content_type_detected",
        "content type detected by sniffing; extension overridden"⟩, by simp [h], by simp⟩

/-- C3 witness: a file whose bytes sniff as PDF but whose extension is `.txt`
is dispatched to the PDF sanitizer with a detection warning. -/
theorem sniff_decides_over_extension_witness :
    (specDispatch [0x25, 0x50, 0x44, 0x46, 0x2D] [] ".txt").1 =
        sniffContentType [0x25, 0x50, 0x44, 0x46, 0x2D] [] ∧
      ∃ w ∈ (specDispatch [0x25, 0x50, 0x44, 0x46, 0x2D] [] ".txt").2,
        w.code = "content_type_detected" ∨ w.code = "content_type_mismatch" :=
  sniff_decides_over_extension [0x25, 0x50, 0x44, 0x46, 0x2D] [] ".txt" (by decide)

def allowlistSkippedW : WarningItem :=
  ⟨"allowlist_skipped", "extension not in allow list; skipped"⟩

/-- C5: with a non-empty allow list, a file whose (lowercase) extension is not
on the list is reported `skipped` with the single `allowlist_skipped` warning
and a null output path, whatever `copy_unsupported` says (the options are
arbitrary here). -/
theorem allowlist_skips_file (allowExts : List String) (env : FileEnv)
    (o : SanitizeOptions)
    (hne : allowExts ≠ [])
    (hmem : allowExts.contains env.suffix = false)
    (hex : matchExcludeGlob env o.exclude_globs = none)
    (hsym : (o.skip_symlinks && env.isSymlink) = false)
    (hrep : env.resolvedIsReport = false)
    (hout : env.resolvedUnderOut = false) :
    sanitizeOneWithAllowlist allowExts env o =
      some (mkItem env.pathStr none "skipped" [allowlistSkippedW], false) := by
  unfold sanitizeOneWithAllowlist
  rw [hex]
  have hne2 : allowExts.isEmpty = false := by
    cases allowExts with
    | nil => exact absurd rfl hne
    | cons a rest => rfl
  have hnotmem : env.suffix ∉ allowExts := by
    intro hc
    have := List.elem_eq_true_of_mem hc
    rw [show allowExts.elem env.suffix = allowExts.contains env.suffix from rfl, hmem] at this
    cases this
  simp [hsym, hrep, hout, hmem, hne2, allowlistSkippedW, hnotmem]

/-- C5 witness: a `.txt` file under `allow_exts = [".jpg"]` with
`copy_unsupported = true` is still skipped with `allowlist_skipped`. -/
theorem allowlist_skips_file_witness :
    sanitizeOneWithAllowlist [".jpg"] w8env { copy_unsupported := true } =
      some (mkItem "/in/a.txt" none "skipped" [allowlistSkippedW], false) :=
  allowlist_skips_file [".jpg"] w8env { copy_unsupported := true }
    (by decide) (by rfl) (by rfl) (by rfl) (by rfl) (by rfl)

/-- C1 counterexample input: the target exists and `overwrite` is off. -/
def overwriteEnv : FileEnv :=
  { pathStr := "/in/a.txt", suffix := ".txt", outPathStr := "/out/a.txt",
    outputExists := true }

/-- C1 counterexample: the overwrite-guard skip carries a non-null
`output_path` even though its action is `skipped` (and no bytes are placed),
refuting "output_path is null when the action is one of excluded, skipped,
truncated, or blocked". -/
theorem skipped_item_with_output_path :
    (sanitizeFile overwriteEnv { overwrite := false }).1.action = "skipped" ∧
      (sanitizeFile overwriteEnv { overwrite := false }).1.output_path = some "/out/a.txt" ∧
      (sanitizeFile overwriteEnv { overwrite := false }).2 = false := by
  refine ⟨rfl, rfl, rfl⟩

/-- C6 counterexample input: a stored empty member (uncompressed and
compressed sizes both 0). -/
def emptyStoredEntry : ZipEntry :=
  { info := { filename := "empty.txt", file_size := 0, compress_size := 0 } }

/-- C6 counterexample: under the finite cap 2 the 0-byte-compressed (and
0-byte-uncompressed) member is NOT omitted — it is copied through and no
`zip_entry_compression_ratio_exceeded` warning appears — refuting "a member
whose compressed size is 0 bytes is treated as having infinite compression
ratio (and is therefore omitted under any finite cap)". -/
theorem zero_compressed_member_not_omitted :
    (sanitizeZipMembers { zip_max_compression_ratio := 2 } true [emptyStoredEntry]).map
        (fun r => (r.2.map (fun m => m.1.filename), r.1.map (fun w => w.code))) =
      .ok (["empty.txt"], ["zip_entry_unsupported_copied"]) := by
  rfl

/-- C7 counterexample input: a member with a non-leading drive-letter segment. -/
def driveEntry : ZipEntry :=
  { info := { filename := "a/C:/b.txt", file_size := 0, compress_size := 0 } }

/-- C7 counterexample: the sanitized archive can contain an entry whose name
holds a drive-letter segment — the source checks only the first path segment
for a trailing colon — refuting "contains ... no drive-letter segment". -/
theorem output_contains_drive_letter_segment :
    (sanitizeZipMembers {} true [driveEntry]).map
        (fun r => r.2.map (fun m => m.1.filename)) = .ok ["a/C:/b.txt"] ∧
      "C:" ∈ posixParts "a/C:/b.txt" ∧ strEndsWith "C:" ":" = true := by
  refine ⟨by rfl, by decide, by rfl⟩


/-- Codes of the warnings `_scan_office_macro_indicators_bytes` can emit. -/
theorem scanOfficeBytes_codes (names : Except String (List String)) :
    ∀ w ∈ scanOfficeBytes names,
      w.code = "office_ooxml_scan_failed" ∨ w.code = "office_macro_indicator_vbaproject" := by
  intro w hw
  unfold scanOfficeBytes at hw
  rcases names with exc | nm <;> (repeat' split at hw) <;> simp_all

/-- A warning code can originate from the per-member PDF sanitizer oracle. -/
def pdfOrigin (e : ZipEntry) (c : String) : Prop :=
  ∃ pl pws, e.pdfSan = Except.ok (pl, pws) ∧ ∃ w0 ∈ pws, c = w0.code

/-- Codes the post-guardrail dispatch can add. -/
def dispatchCode (e : ZipEntry) (c : String) : Prop :=
  c ∈ ["zip_nested_archive_read_failed", "zip_total_expanded_limit_exceeded",
      "zip_nested_archive_copied", "zip_nested_archive_skipped", "zip_entry_sanitize_failed",
      "office_macro_enabled", "zip_entry_unsupported_copied", "zip_entry_unsupported_skipped",
      "office_ooxml_scan_failed", "office_macro_indicator_vbaproject"] ∨ pdfOrigin e c

/-- Branch-by-branch footprint of `zipDispatch`: every warning it adds carries
one of the dispatch codes (or stems from the PDF oracle), and every member it
writes is `_write_zip_member` applied to the current entry. -/
theorem zipDispatch_spec (o : SanitizeOptions) (writeOut : Bool) (st : ZState) (e : ZipEntry)
    (outputName suffix : String) (expanded : Int) (st2 : ZState)
    (h : zipDispatch o writeOut st e outputName suffix expanded = .ok st2) :
    (∀ w ∈ st2.warnings, w ∈ st.warnings ∨ dispatchCode e w.code) ∧
      (∀ m ∈ st2.written, m ∈ st.written ∨ m.1 = writeZipMember e.info outputName) := by
  simp only [zipDispatch] at h
  repeat' split at h
  all_goals cases h
  all_goals constructor
  all_goals intro x hx
  all_goals first
    | exact Or.inl hx
    | (rcases mem_addW hx with h1 | h1
       · exact Or.inl h1
       · subst h1
         exact Or.inr (Or.inl (by
           simp [nestedReadFailW, nestedTotalW, nestedCopiedW, nestedSkippedW, totalExceededW,
             sanitizeFailedW, officeMacroZipW, unsupportedCopiedZipW, unsupportedSkippedZipW])))
    | (simp only [List.mem_append, List.mem_singleton] at hx
       rcases hx with h1 | h1
       · exact Or.inl h1
       · rw [h1]
         exact Or.inr rfl)
    | (rcases mem_addPrefixed hx with h1 | h1
       · exact Or.inl h1
       · rcases h1 with ⟨w0, hw0, hc⟩
         exact Or.inr (Or.inr ⟨_, _, by assumption, w0, hw0, hc⟩))
    | (rcases mem_addW hx with h1 | h1
       · rcases mem_addPrefixed h1 with h2 | h2
         · first
           | exact Or.inl h2
           | (rcases mem_addW h2 with h3 | h3
              · exact Or.inl h3
              · subst h3
                exact Or.inr (Or.inl (by simp [officeMacroZipW])))
         · rcases h2 with ⟨w0, hw0, hc⟩
           rcases scanOfficeBytes_codes e.officeNames w0 hw0 with hco | hco <;>
             · rw [hc, hco]
               exact Or.inr (Or.inl (by simp [dispatchCode]))
       · subst h1
         exact Or.inr (Or.inl (by simp [unsupportedCopiedZipW])))
    | (rcases mem_addW hx with h1 | h1
       · rcases mem_addW h1 with h2 | h2
         · exact Or.inl h2
         · subst h2
           exact Or.inr (Or.inl (by simp [officeMacroZipW]))
       · subst h1
         exact Or.inr (Or.inl (by simp [unsupportedSkippedZipW])))


/-- Safety of one output-archive member, in the terms of claim C7 with the
drive-letter condition restricted to the first path segment (which is what the
source checks): the normalized name has no leading slash, no leading
drive-letter segment, no `..` segment; the entry is not a symlink by its
external attributes; and its encrypted flag bit is cleared. -/
def safeMember (m : OutZipInfo) : Prop :=
  strStartsWith m.filename "/" = false ∧
    (match posixParts m.filename with
     | p :: _ => strEndsWith p ":" = false
     | [] => True) ∧
    (posixParts m.filename).contains ".." = false ∧
    isSymlinkAttr m.external_attr = false ∧
    m.flag_bits % 2 = 0

theorem writeZipMember_safe (info : ZipInfo) (outputName : String)
    (hsafe : isUnsafeZipName outputName = false)
    (hlink : zipinfoIsSymlink info = false) :
    safeMember (writeZipMember info outputName) := by
  unfold isUnsafeZipName at hsafe
  simp only [Bool.or_eq_false_iff] at hsafe
  obtain ⟨⟨h1, h2⟩, h3⟩ := hsafe
  unfold safeMember writeZipMember
  refine ⟨h1, ?_, h3, hlink, ?_⟩
  · cases hp : posixParts outputName with
    | nil => trivial
    | cons p rest =>
      rw [hp] at h2
      exact h2
  · show 2 * (info.flag_bits / 2) % 2 = 0
    omega

theorem processEntry_written (o : SanitizeOptions) (writeOut : Bool) (st : ZState)
    (e : ZipEntry) (st2 : ZState) (h : processEntry o writeOut st e = .ok st2) :
    ∀ m ∈ st2.written, m ∈ st.written ∨ safeMember m.1 := by
  simp only [processEntry] at h
  repeat' split at h
  all_goals try (cases h; intro m hm; exact Or.inl hm)
  -- directory entry written into the archive
  case _ =>
    cases h
    intro m hm
    simp only [List.mem_append, List.mem_singleton] at hm
    rcases hm with hm | hm
    · exact Or.inl hm
    · rw [hm]
      refine Or.inr (writeZipMember_safe _ _ ?_ ?_)
      · have hu := ‹¬ isUnsafeZipName (normalizeZipName e.info.filename) = true›
        simpa using hu
      · have hl := ‹¬ zipinfoIsSymlink e.info = true›
        simpa using hl
  -- the post-guardrail dispatch
  case _ =>
    intro m hm
    rcases (zipDispatch_spec _ _ _ _ _ _ _ _ h).2 m hm with hm2 | hm2
    · exact Or.inl hm2
    · rw [hm2]
      refine Or.inr (writeZipMember_safe _ _ ?_ ?_)
      · have hu := ‹¬ isUnsafeZipName (normalizeZipName e.info.filename) = true›
        simpa using hu
      · have hl := ‹¬ zipinfoIsSymlink e.info = true›
        simpa using hl

theorem runEntries_written (o : SanitizeOptions) (writeOut : Bool) (es : List ZipEntry) :
    ∀ st st2, runEntries o writeOut st es = .ok st2 →
      (∀ m ∈ st.written, safeMember m.1) → ∀ m ∈ st2.written, safeMember m.1 := by
  induction es with
  | nil =>
    intro st st2 h hP m hm
    cases h
    exact hP m hm
  | cons e rest ih =>
    intro st st2 h hP m hm
    unfold runEntries at h
    cases hpe : processEntry o writeOut st e with
    | error msg => rw [hpe] at h; cases h
    | ok st1 =>
      rw [hpe] at h
      refine ih st1 st2 h ?_ m hm
      intro m2 hm2
      rcases processEntry_written o writeOut st e st1 hpe m2 hm2 with h1 | h1
      · exact hP m2 h1
      · exact h1

/-- C7 (amended): every member of a sanitized output archive has a normalized
name with no leading `/`, no leading drive-letter segment and no `..` segment,
is not a symlink by its external attributes, and has its encrypted flag bit
cleared.  (The claim's blanket "no drive-letter segment" is narrowed to the
first segment; see the counterexample.) -/
theorem zip_output_members_safe (o : SanitizeOptions) (writeOut : Bool)
    (entries : List ZipEntry) (ws : List WarningItem) (written : List (OutZipInfo × Nat))
    (h : sanitizeZipMembers o writeOut entries = .ok (ws, written)) :
    ∀ m ∈ written, safeMember m.1 := by
  simp only [sanitizeZipMembers] at h
  split at h
  · cases h
  · rename_i st hr
    simp only [Except.ok.injEq, Prod.mk.injEq] at h
    obtain ⟨hws, hwr⟩ := h
    subst hwr
    intro m hm
    refine runEntries_written o writeOut _ _ _ hr ?_ m hm
    intro m2 hm2
    split at hm2 <;> exact absurd hm2 (List.not_mem_nil m2)


/-- C7 witness entry: one plain member. -/
def okEntry : ZipEntry := { info := { filename := "docs/a.txt" } }

def outA : OutZipInfo :=
  { filename := "docs/a.txt", date_time := 0, compress_type := 0, create_system := 0,
    external_attr := 0, comment := "", extra := "", internal_attr := 0, flag_bits := 0 }

/-- C7 witness: the member written for a concrete archive satisfies the safety
predicate. -/
theorem zip_output_members_safe_witness :
    safeMember outA :=
  zip_output_members_safe {} true [okEntry] [unsupportedCopiedZipW okEntry] [(outA, 0)]
    (by rfl) (outA, 0) (by simp)

/-- C6 (amended): a member that reaches the compression-ratio guardrail is
omitted with a `zip_entry_compression_ratio_exceeded` warning exactly when the
source's ratio — `1.0` whenever the uncompressed size is 0, infinite when the
uncompressed size is positive but the compressed size is 0, and the exact
quotient otherwise — exceeds `zip_max_compression_ratio`; when it does not
exceed the cap, no warning with that code is added for the member. -/
theorem ratio_guardrail_exact (o : SanitizeOptions) (writeOut : Bool) (st : ZState)
    (e : ZipEntry)
    (hname : (normalizeZipName e.info.filename == "") = false)
    (hsafe : isUnsafeZipName (normalizeZipName e.info.filename) = false)
    (hdup : st.seen.contains (normalizeZipName e.info.filename) = false)
    (hlink : zipinfoIsSymlink e.info = false)
    (hdir : zipInfoIsDir e.info = false)
    (henc : (e.info.flag_bits % 2 == 1) = false)
    (hsize : ¬ o.zip_max_member_uncompressed_bytes < max e.info.file_size 0)
    (hpdf : ∀ pl pws, e.pdfSan = Except.ok (pl, pws) →
        ∀ w ∈ pws, strStartsWith w.code "pdf_" = true) :
    (ratioExceeds (zipRatioOf (max e.info.file_size 0) (max e.info.compress_size 0))
          o.zip_max_compression_ratio = true →
        processEntry o writeOut st e =
          .ok { st with
                seen := st.seen ++ [normalizeZipName e.info.filename]
                warnings := addW st.warnings (ratioWarnW e o) }) ∧
      (ratioExceeds (zipRatioOf (max e.info.file_size 0) (max e.info.compress_size 0))
          o.zip_max_compression_ratio = false →
        ∀ st2, processEntry o writeOut st e = .ok st2 →
          ∀ w ∈ st2.warnings, w.code = "zip_entry_compression_ratio_exceeded" →
            w ∈ st.warnings) := by
  have hdup2 : normalizeZipName e.info.filename ∉ st.seen := by simpa using hdup
  constructor
  · intro hr
    simp [processEntry, hname, hsafe, hdup, hdup2, hlink, hdir, henc, hsize, hr]
  · intro hr st2 h2 w hw hcode
    simp [processEntry, hname, hsafe, hdup, hdup2, hlink, hdir, henc, hsize, hr] at h2
    rcases (zipDispatch_spec _ _ _ _ _ _ _ _ h2).1 w hw with h1 | h1
    · exact h1
    · exfalso
      rcases h1 with hfix | hpdfo
      · rw [hcode] at hfix
        exact absurd hfix (by decide)
      · rcases hpdfo with ⟨pl, pws, heq, w0, hw0, hc⟩
        have hst := hpdf pl pws heq w0 hw0
        rw [← hc, hcode] at hst
        exact absurd hst (by decide)

/-- C6 witness options and entry: cap 2, a member claiming 50000 uncompressed
bytes in 0 compressed bytes. -/
def ratioOpts : SanitizeOptions := { zip_max_compression_ratio := 2 }

def bombEntry : ZipEntry :=
  { info := { filename := "bomb.txt", file_size := 50000, compress_size := 0 } }

/-- C6 witness: the infinite-ratio member is omitted with the ratio warning. -/
theorem ratio_guardrail_exact_witness :
    processEntry ratioOpts true {} bombEntry =
      .ok { warnings := [ratioWarnW bombEntry ratioOpts]
            seen := ["bomb.txt"]
            total := 0
            written := [] } :=
  (ratio_guardrail_exact ratioOpts true {} bombEntry (by rfl) (by rfl) (by rfl) (by rfl)
    (by rfl) (by rfl) (by decide)
    (by
      intro pl pws h w hw
      have h2 : (Except.ok (0, ([] : List WarningItem)) :
          Except String (Nat × List WarningItem)) = Except.ok (pl, pws) := h
      simp only [Except.ok.injEq, Prod.mk.injEq] at h2
      obtain ⟨h1, h3⟩ := h2
      subst h3
      cases hw)).1 (by rfl)


/-- Actions that carry (or, in dry run, forecast) placed output bytes. -/
def activeActions : List String :=
  ["image_sanitized", "pdf_sanitized", "zip_sanitized", "copied",
   "would_image_sanitize", "would_pdf_sanitize", "would_zip_sanitize", "would_copy"]

theorem officeWs_codes (env : FileEnv) :
    ∀ w ∈ officeWs env,
      w.code = "office_macro_enabled" ∨ w.code = "office_ooxml_scan_failed" ∨
        w.code = "office_macro_indicator_vbaproject" := by
  intro w hw
  unfold officeWs at hw
  split at hw
  · exact scanOfficePath_codes env.suffix env.officeNames w hw
  · cases hw

/-- Characterization of `_sanitize_file` needed by claim C1: the report item's
`output_path` is null exactly for `blocked`/`would_block` and for the
skip records that do not stem from the overwrite guard, and the
placed-output bit holds exactly for the active (and `would_*`) actions. -/
theorem sanitizeFile_c1 (env : FileEnv) (o : SanitizeOptions) (item : ReportItem)
    (placed : Bool) (h : sanitizeFile env o = (item, placed)) :
    (item.output_path = none ↔
      (item.action = "excluded" ∨ item.action = "blocked" ∨ item.action = "would_block" ∨
       ((item.action = "skipped" ∨ item.action = "would_skip") ∧
        ∀ w ∈ item.warnings, w.code ≠ "output_exists"))) ∧
    (placed = true ↔ item.action ∈ activeActions) := by
  simp only [sanitizeFile] at h
  repeat' split at h
  all_goals cases h
  all_goals try (constructor <;> simp [mkItem, activeActions, outputExistsW])
  all_goals
    intro w hw
    rcases hw with hw | hw
    · rcases officeWs_codes env w hw with h1 | h1 | h1 <;> simp [h1]
    · subst hw
      simp [unsupportedSkippedW]


/-- C1 (amended): in any completed run, an emitted item's `output_path` is
null exactly when its action is `excluded`, `blocked` or `would_block`, or it
is a `skipped`/`would_skip` record not caused by the overwrite guard (the
overwrite-guard skip carries the existing target's path; `error` records carry
the intended output path although nothing was placed); and the engine did (or,
in dry run, would) place bytes at that path exactly for the active actions. -/
theorem output_path_characterization (files : List FileEnv) (o : SanitizeOptions)
    (items : List (ReportItem × Bool)) (code : Nat)
    (h : sanitizePath files o = .ok (items, code)) :
    ∀ itp ∈ items,
      (itp.1.output_path = none ↔
        (itp.1.action = "excluded" ∨ itp.1.action = "blocked" ∨
         itp.1.action = "would_block" ∨
         ((itp.1.action = "skipped" ∨ itp.1.action = "would_skip") ∧
          ∀ w ∈ itp.1.warnings, w.code ≠ "output_exists"))) ∧
      (itp.2 = true ↔ itp.1.action ∈ activeActions) := by
  unfold sanitizePath at h
  cases hv : validateOptions o with
  | error x => rw [hv] at h; cases h
  | ok u =>
    rw [hv] at h
    simp only [Except.ok.injEq, Prod.mk.injEq] at h
    obtain ⟨hitems, _⟩ := h
    subst hitems
    intro itp hm
    rcases List.mem_filterMap.mp hm with ⟨env, _, hso⟩
    unfold sanitizeOne at hso
    repeat' split at hso
    all_goals cases hso
    · constructor <;> simp [excludedItem, mkItem, activeActions]
    · constructor <;> simp [mkItem, activeActions, symlinkW]
    · exact sanitizeFile_c1 env o _ _ rfl

/-- C1 witness: the characterization at a concrete run's single item. -/
theorem output_path_characterization_witness :
    (((mkItem "/in/a.txt" (some "/out/a.txt") "copied" [unsupportedCopiedW], true) :
        ReportItem × Bool).1.output_path = none ↔
      ((mkItem "/in/a.txt" (some "/out/a.txt") "copied" [unsupportedCopiedW], true).1.action =
          "excluded" ∨
       (mkItem "/in/a.txt" (some "/out/a.txt") "copied" [unsupportedCopiedW], true).1.action =
          "blocked" ∨
       (mkItem "/in/a.txt" (some "/out/a.txt") "copied" [unsupportedCopiedW], true).1.action =
          "would_block" ∨
       (((mkItem "/in/a.txt" (some "/out/a.txt") "copied" [unsupportedCopiedW], true).1.action =
            "skipped" ∨
         (mkItem "/in/a.txt" (some "/out/a.txt") "copied" [unsupportedCopiedW], true).1.action =
            "would_skip") ∧
        ∀ w ∈ (mkItem "/in/a.txt" (some "/out/a.txt") "copied" [unsupportedCopiedW],
            true).1.warnings, w.code ≠ "output_exists"))) ∧
      ((mkItem "/in/a.txt" (some "/out/a.txt") "copied" [unsupportedCopiedW], true).2 = true ↔
        (mkItem "/in/a.txt" (some "/out/a.txt") "copied" [unsupportedCopiedW],
          true).1.action ∈ activeActions) :=
  output_path_characterization [w8env] {}
    [(mkItem "/in/a.txt" (some "/out/a.txt") "copied" [unsupportedCopiedW], true)] 0 (by rfl)
    (mkItem "/in/a.txt" (some "/out/a.txt") "copied" [unsupportedCopiedW], true) (by simp)


theorem officeWs_not_risky (env : FileEnv) (o : SanitizeOptions) (hb : o.risky_policy = "block")
    (hc : ¬(officeOoxmlExts.contains env.suffix && o.risky_policy == "block" &&
        hasRiskyFindings (officeWs env)) = true) :
    hasRiskyFindings (officeWs env) = false := by
  by_cases hoo : officeOoxmlExts.contains env.suffix = true
  · cases hx : hasRiskyFindings (officeWs env) with
    | false => rfl
    | true =>
      refine absurd ?_ hc
      rw [hoo, hb, hx]
      rfl
  · simp only [officeWs]
    rw [if_neg hoo]
    rfl

theorem sanitizeFile_block (env : FileEnv) (o : SanitizeOptions) (item : ReportItem)
    (placed : Bool) (h : sanitizeFile env o = (item, placed))
    (hb : o.risky_policy = "block")
    (hr : ∃ w ∈ item.warnings, isRiskyWarning w = true) :
    (o.dry_run = false → item.action = "blocked" ∧ policyBlockedW ∈ item.warnings ∧
      item.output_path = none ∧ placed = false) ∧
    (o.dry_run = true → item.action = "would_block" ∧ policyBlockedW ∈ item.warnings) := by
  simp only [sanitizeFile] at h
  repeat' split at h
  all_goals cases h
  all_goals try (constructor <;> intro hd <;> simp_all [mkItem, activeActions])
  all_goals try assumption
  all_goals
    exfalso
    rcases hr with ⟨w, hw, hrw⟩
    try simp only [mkItem, List.mem_append, List.mem_singleton] at hw
  all_goals try
    (subst hw
     exact absurd hrw (by decide))
  all_goals try
    (have hnr := officeWs_not_risky env o hb (by assumption)
     simp only [hasRiskyFindings, List.any_eq_false] at hnr
     exact hnr w hw hrw)
  all_goals try
    (have hempty : officeWs env = [] := by
       simp only [officeWs, ‹env.suffix = ".pdf"›]
       rfl
     rw [hempty] at hw
     cases hw)
  all_goals try
    (have hempty : officeWs env = [] := by
       simp only [officeWs, ‹env.suffix = ".zip"›]
       rfl
     rw [hempty] at hw
     cases hw)
  all_goals try
    (by_cases hoo : env.suffix ∈ officeOoxmlExts
     · have hnr := ‹env.suffix ∈ officeOoxmlExts → hasRiskyFindings (officeWs env) = false› hoo
       simp only [hasRiskyFindings, List.any_eq_false] at hnr
       exact hnr w hw hrw
     · rw [show officeWs env = [] from by simp [officeWs, hoo]] at hw
       cases hw)
  all_goals try
    (rcases hw with hw | hw
     · first
       | (have hnr := officeWs_not_risky env o hb (by assumption)
          simp only [hasRiskyFindings, List.any_eq_false] at hnr
          exact hnr w hw hrw)
       | (by_cases hoo : env.suffix ∈ officeOoxmlExts
          · have hnr :=
              ‹env.suffix ∈ officeOoxmlExts → hasRiskyFindings (officeWs env) = false› hoo
            simp only [hasRiskyFindings, List.any_eq_false] at hnr
            exact hnr w hw hrw
          · rw [show officeWs env = [] from by simp [officeWs, hoo]] at hw
            cases hw)
       | simp_all [hb]
     · first
       | (subst hw
          exact absurd hrw (by decide))
       | simp_all [hb])
  all_goals try (exact absurd ‹w ∈ ([] : List WarningItem)› (List.not_mem_nil w))
  all_goals simp_all [hasRiskyFindings, List.any_eq_false, List.mem_append]

theorem isRisky_excluded (m : String) :
    isRiskyWarning ⟨"excluded_by_pattern", m⟩ = false := rfl

/-- C2: in a run with `risky_policy = "block"`, every emitted item carrying at
least one risky warning is `blocked` in a write run — with `policy_blocked`
appended, a null output path and no bytes placed (the temp file is removed) —
and `would_block` in a dry run. -/
theorem risky_findings_blocked (files : List FileEnv) (o : SanitizeOptions)
    (items : List (ReportItem × Bool)) (code : Nat)
    (h : sanitizePath files o = .ok (items, code)) (hb : o.risky_policy = "block") :
    ∀ itp ∈ items, (∃ w ∈ itp.1.warnings, isRiskyWarning w = true) →
      (o.dry_run = false → itp.1.action = "blocked" ∧ policyBlockedW ∈ itp.1.warnings ∧
        itp.1.output_path = none ∧ itp.2 = false) ∧
      (o.dry_run = true → itp.1.action = "would_block" ∧ policyBlockedW ∈ itp.1.warnings) := by
  unfold sanitizePath at h
  cases hv : validateOptions o with
  | error x => rw [hv] at h; cases h
  | ok u =>
    rw [hv] at h
    simp only [Except.ok.injEq, Prod.mk.injEq] at h
    obtain ⟨hitems, _⟩ := h
    subst hitems
    intro itp hm hr
    rcases List.mem_filterMap.mp hm with ⟨env, _, hso⟩
    unfold sanitizeOne at hso
    repeat' split at hso
    all_goals cases hso
    · exfalso
      rcases hr with ⟨w, hw, hrw⟩
      simp only [excludedItem, mkItem, List.mem_singleton] at hw
      rw [hw, isRisky_excluded] at hrw
      cases hrw
    · exfalso
      rcases hr with ⟨w, hw, hrw⟩
      simp only [mkItem, List.mem_singleton] at hw
      subst hw
      exact absurd hrw (by decide)
    · exact sanitizeFile_block env o _ _ rfl hb hr

/-- C2 witness input: a ZIP processed under the blocking policy. -/
def zipEnv : FileEnv :=
  { pathStr := "/in/b.zip", suffix := ".zip", outPathStr := "/out/b.zip",
    zipEntries := .ok [okEntry] }

def blockOpts : SanitizeOptions := { risky_policy := "block" }

/-- C2 witness: the concrete risky ZIP item is blocked with no output. -/
theorem risky_findings_blocked_witness :
    (blockOpts.dry_run = false →
      (mkItem "/in/b.zip" none "blocked"
          [unsupportedCopiedZipW okEntry, policyBlockedW] : ReportItem).action = "blocked" ∧
        policyBlockedW ∈ (mkItem "/in/b.zip" none "blocked"
          [unsupportedCopiedZipW okEntry, policyBlockedW]).warnings ∧
        (mkItem "/in/b.zip" none "blocked"
          [unsupportedCopiedZipW okEntry, policyBlockedW]).output_path = none ∧
        false = false) ∧
      (blockOpts.dry_run = true →
        (mkItem "/in/b.zip" none "blocked"
          [unsupportedCopiedZipW okEntry, policyBlockedW]).action = "would_block" ∧
          policyBlockedW ∈ (mkItem "/in/b.zip" none "blocked"
            [unsupportedCopiedZipW okEntry, policyBlockedW]).warnings) :=
  risky_findings_blocked [zipEnv] blockOpts
    [(mkItem "/in/b.zip" none "blocked" [unsupportedCopiedZipW okEntry, policyBlockedW], false)]
    2 (by rfl) rfl
    (mkItem "/in/b.zip" none "blocked" [unsupportedCopiedZipW okEntry, policyBlockedW], false)
    (by simp)
    ⟨unsupportedCopiedZipW okEntry, List.mem_cons_self _ _, by decide⟩

/-- C4 inputs: three files under a root, with the directory segment `skip`
excluded by glob. -/
def c4opts : SanitizeOptions := { exclude_globs := ["skip"], copy_unsupported := true }

def c4envA : FileEnv :=
  { pathStr := "/in/skip/a.txt", name := "a.txt", suffix := ".txt",
    relPosix := "skip/a.txt", relParts := ["skip", "a.txt"], outPathStr := "/out/skip/a.txt" }

def c4envB : FileEnv :=
  { pathStr := "/in/skip/b.txt", name := "b.txt", suffix := ".txt",
    relPosix := "skip/b.txt", relParts := ["skip", "b.txt"], outPathStr := "/out/skip/b.txt" }

def c4envC : FileEnv :=
  { pathStr := "/in/keep/c.txt", name := "c.txt", suffix := ".txt",
    relPosix := "keep/c.txt", relParts := ["keep", "c.txt"], outPathStr := "/out/keep/c.txt" }

/-- C4: evaluating the engine on a directory whose `skip` subtree matches an
exclusion glob shows that the subtree is still traversed — each file below the
directory yields its own `excluded` record (and the directory itself yields
none, since only regular files are enumerated) — contradicting the claimed
pruning with a single directory record, which the repository's own test
`test_exclude_prunes_directory_children_from_traversal` expects. -/
theorem exclusion_traverses_children :
    (sanitizePath [c4envA, c4envB, c4envC] c4opts).map
        (fun r => r.1.map (fun itp => (itp.1.input_path, itp.1.action))) =
      .ok [("/in/skip/a.txt", "excluded"), ("/in/skip/b.txt", "excluded"),
          ("/in/keep/c.txt", "copied")] := by
  rfl

end FileSanitizer
